import Mathlib

/-!
Verification of the canonical data model of the database-introspection
library (src/server/prisma-rs/libs/database-introspection/src/lib.rs).

The Rust entities are embedded shallowly: structs become structures,
enums become inductives, Vec becomes List, Option becomes Option,
HashSet of String becomes Finset String (the Rust derived PartialEq on
HashSet is set equality, which is exactly equality of Finset), u32
becomes Nat (no arithmetic is performed on these fields).

The serde-JSON serialization derived on these types is modelled by an
explicit Json abstract syntax tree together with serializers and
deserializers mirroring the serde derive behaviour: structs are objects
keyed by field names, unit enum variants are strings, Vec is an array,
Option is null-or-value, HashSet is an array in iteration order
(modelled here by a canonical sorted order; deserialization collapses
any order and any duplicates back into the set).
-/

namespace Introspection

/-- Abstract syntax of JSON values, the reference serialization format. -/
inductive Json where
  | null : Json
  | bool : Bool → Json
  | num : Nat → Json
  | str : String → Json
  | arr : List Json → Json
  | obj : List (String × Json) → Json

/-- Look a key up in an object field list; first binding wins. -/
def findField : List (String × Json) → String → Option Json
  | [], _ => none
  | (k, v) :: rest, key => if k = key then some v else findField rest key

/-- Field access on a Json value: only objects have fields. -/
def Json.getField : Json → String → Option Json
  | .obj fields, key => findField fields key
  | _, _ => none

/-- Expect a JSON string. -/
def Json.asStr : Json → Option String
  | .str s => some s
  | _ => none

/-- Expect a JSON boolean. -/
def Json.asBool : Json → Option Bool
  | .bool b => some b
  | _ => none

/-- Expect a JSON number. -/
def Json.asNum : Json → Option Nat
  | .num n => some n
  | _ => none

/-- Expect a JSON array. -/
def Json.asArr : Json → Option (List Json)
  | .arr xs => some xs
  | _ => none

/-- Introspection errors (lib.rs lines 10-15). The Rust enum has exactly
one variant, UnknownError. -/
inductive IntrospectionError where
  | UnknownError : IntrospectionError
deriving DecidableEq

/-- Enumeration of column type families (lib.rs lines 119-146). -/
inductive ColumnTypeFamily where
  | Int
  | Float
  | Boolean
  | String
  | DateTime
  | Binary
  | Json
  | Uuid
  | Geometric
  | LogSequenceNumber
  | TextSearch
  | TransactionId
deriving DecidableEq

/-- A column's arity (lib.rs lines 149-157). -/
inductive ColumnArity where
  | Required
  | Nullable
  | List
deriving DecidableEq

/-- Foreign key action types (lib.rs lines 160-178). -/
inductive ForeignKeyAction where
  | NoAction
  | Restrict
  | Cascade
  | SetNull
  | SetDefault
deriving DecidableEq

/-- The type of a column (lib.rs lines 110-116). -/
structure ColumnType where
  raw : String
  family : ColumnTypeFamily
deriving DecidableEq

/-- A column of a table (lib.rs lines 94-107). -/
structure Column where
  name : String
  tpe : ColumnType
  arity : ColumnArity
  default : Option String
  auto_increment : Bool
deriving DecidableEq

/-- An index of a table (lib.rs lines 76-84). -/
structure Index where
  name : String
  columns : List String
  unique : Bool
deriving DecidableEq

/-- The primary key of a table (lib.rs lines 87-91). -/
structure PrimaryKey where
  columns : List String
deriving DecidableEq

/-- A foreign key (lib.rs lines 181-190). -/
structure ForeignKey where
  columns : List String
  referenced_table : String
  referenced_columns : List String
  on_delete_action : ForeignKeyAction
deriving DecidableEq

/-- A SQL enum (lib.rs lines 193-199). The Rust field values is a
HashSet of String; its derived equality is set equality, embedded as
Finset String. -/
structure Enum where
  name : String
  values : Finset String
deriving DecidableEq

/-- A SQL sequence (lib.rs lines 202-210). The u32 fields carry no
arithmetic in this library and are embedded as Nat. -/
structure Sequence where
  name : String
  initial_value : Nat
  allocation_size : Nat
deriving DecidableEq

/-- A table found in a schema (lib.rs lines 61-73). -/
structure Table where
  name : String
  columns : List Column
  indices : List Index
  primary_key : Option PrimaryKey
  foreign_keys : List ForeignKey
deriving DecidableEq

/-- The result of introspecting a database schema (lib.rs lines 34-42). -/
structure DatabaseSchema where
  tables : List Table
  enums : List Enum
  sequences : List Sequence
deriving DecidableEq

/-- Get a table (lib.rs lines 46-48): linear scan for the first table
with the given name. -/
def DatabaseSchema.get_table (s : DatabaseSchema) (name : String) : Option Table :=
  s.tables.find? (fun x => x.name == name)

/-- Get an enum (lib.rs lines 51-53). -/
def DatabaseSchema.get_enum (s : DatabaseSchema) (name : String) : Option Enum :=
  s.enums.find? (fun x => x.name == name)

/-- Get a sequence (lib.rs lines 55-57). -/
def DatabaseSchema.get_sequence (s : DatabaseSchema) (name : String) : Option Sequence :=
  s.sequences.find? (fun x => x.name == name)

/-- Serde serialization of a unit enum variant: the variant name as a
JSON string. -/
def ColumnTypeFamily.serialize : ColumnTypeFamily → Introspection.Json
  | .Int => .str "Int"
  | .Float => .str "Float"
  | .Boolean => .str "Boolean"
  | .String => .str "String"
  | .DateTime => .str "DateTime"
  | .Binary => .str "Binary"
  | .Json => .str "Json"
  | .Uuid => .str "Uuid"
  | .Geometric => .str "Geometric"
  | .LogSequenceNumber => .str "LogSequenceNumber"
  | .TextSearch => .str "TextSearch"
  | .TransactionId => .str "TransactionId"

/-- Serde deserialization of a ColumnTypeFamily: any string other than
a variant name is an error. -/
def ColumnTypeFamily.deserialize : Introspection.Json → Option ColumnTypeFamily
  | .str "Int" => some .Int
  | .str "Float" => some .Float
  | .str "Boolean" => some .Boolean
  | .str "String" => some .String
  | .str "DateTime" => some .DateTime
  | .str "Binary" => some .Binary
  | .str "Json" => some .Json
  | .str "Uuid" => some .Uuid
  | .str "Geometric" => some .Geometric
  | .str "LogSequenceNumber" => some .LogSequenceNumber
  | .str "TextSearch" => some .TextSearch
  | .str "TransactionId" => some .TransactionId
  | _ => none

/-- Serde serialization of a ColumnArity variant. -/
def ColumnArity.serialize : ColumnArity → Json
  | .Required => .str "Required"
  | .Nullable => .str "Nullable"
  | .List => .str "List"

/-- Serde deserialization of a ColumnArity. -/
def ColumnArity.deserialize : Json → Option ColumnArity
  | .str "Required" => some .Required
  | .str "Nullable" => some .Nullable
  | .str "List" => some .List
  | _ => none

/-- Serde serialization of a ForeignKeyAction variant. -/
def ForeignKeyAction.serialize : ForeignKeyAction → Json
  | .NoAction => .str "NoAction"
  | .Restrict => .str "Restrict"
  | .Cascade => .str "Cascade"
  | .SetNull => .str "SetNull"
  | .SetDefault => .str "SetDefault"

/-- Serde deserialization of a ForeignKeyAction. -/
def ForeignKeyAction.deserialize : Json → Option ForeignKeyAction
  | .str "NoAction" => some .NoAction
  | .str "Restrict" => some .Restrict
  | .str "Cascade" => some .Cascade
  | .str "SetNull" => some .SetNull
  | .str "SetDefault" => some .SetDefault
  | _ => none

/-- Serde serialization of an optional string field: None is null. -/
def encodeOptStr : Option String → Json
  | none => .null
  | some s => .str s

/-- Serde deserialization of an optional string field: an absent field
and null both give none, per the serde default for Option fields. -/
def decodeOptStr : Option Json → Option (Option String)
  | none => some none
  | some .null => some none
  | some (.str s) => some (some s)
  | some _ => none

/-- Deserialize every element of a JSON array; any element failure
fails the whole array, mirroring serde Vec deserialization. -/
def decodeList (f : Json → Option α) : List Json → Option (List α)
  | [] => some []
  | j :: rest => do
    let a ← f j
    let as ← decodeList f rest
    some (a :: as)

/-- Serde serialization of a ColumnType struct. -/
def ColumnType.serialize (t : ColumnType) : Json :=
  .obj [("raw", .str t.raw), ("family", t.family.serialize)]

/-- Serde deserialization of a ColumnType struct. -/
def ColumnType.deserialize (j : Json) : Option ColumnType := do
  let raw ← (j.getField "raw").bind Json.asStr
  let family ← (j.getField "family").bind ColumnTypeFamily.deserialize
  some ⟨raw, family⟩

/-- Serde serialization of a Column struct. -/
def Column.serialize (c : Column) : Json :=
  .obj [("name", .str c.name), ("tpe", c.tpe.serialize), ("arity", c.arity.serialize),
    ("default", encodeOptStr c.default), ("auto_increment", .bool c.auto_increment)]

/-- Serde deserialization of a Column struct. -/
def Column.deserialize (j : Json) : Option Column := do
  let name ← (j.getField "name").bind Json.asStr
  let tpe ← (j.getField "tpe").bind ColumnType.deserialize
  let arity ← (j.getField "arity").bind ColumnArity.deserialize
  let dflt ← decodeOptStr (j.getField "default")
  let ai ← (j.getField "auto_increment").bind Json.asBool
  some ⟨name, tpe, arity, dflt, ai⟩

/-- Serde serialization of an Index struct. -/
def Index.serialize (i : Index) : Json :=
  .obj [("name", .str i.name), ("columns", .arr (i.columns.map Json.str)),
    ("unique", .bool i.unique)]

/-- Serde deserialization of an Index struct. -/
def Index.deserialize (j : Json) : Option Index := do
  let name ← (j.getField "name").bind Json.asStr
  let cols ← (j.getField "columns").bind Json.asArr
  let columns ← decodeList Json.asStr cols
  let uniq ← (j.getField "unique").bind Json.asBool
  some ⟨name, columns, uniq⟩

/-- Serde serialization of a PrimaryKey struct: the column list stays
in order. -/
def PrimaryKey.serialize (pk : PrimaryKey) : Json :=
  .obj [("columns", .arr (pk.columns.map Json.str))]

/-- Serde deserialization of a PrimaryKey struct. -/
def PrimaryKey.deserialize (j : Json) : Option PrimaryKey := do
  let cols ← (j.getField "columns").bind Json.asArr
  let columns ← decodeList Json.asStr cols
  some ⟨columns⟩

/-- Serde serialization of an optional PrimaryKey field: None is null. -/
def encodeOptPk : Option PrimaryKey → Json
  | none => .null
  | some pk => pk.serialize

/-- Serde deserialization of an optional PrimaryKey field. -/
def decodeOptPk : Option Json → Option (Option PrimaryKey)
  | none => some none
  | some .null => some none
  | some j => (PrimaryKey.deserialize j).map some

/-- Serde serialization of a ForeignKey struct. -/
def ForeignKey.serialize (fk : ForeignKey) : Json :=
  .obj [("columns", .arr (fk.columns.map Json.str)),
    ("referenced_table", .str fk.referenced_table),
    ("referenced_columns", .arr (fk.referenced_columns.map Json.str)),
    ("on_delete_action", fk.on_delete_action.serialize)]

/-- Serde deserialization of a ForeignKey struct. -/
def ForeignKey.deserialize (j : Json) : Option ForeignKey := do
  let cols ← (j.getField "columns").bind Json.asArr
  let columns ← decodeList Json.asStr cols
  let rt ← (j.getField "referenced_table").bind Json.asStr
  let rcols ← (j.getField "referenced_columns").bind Json.asArr
  let rcolumns ← decodeList Json.asStr rcols
  let act ← (j.getField "on_delete_action").bind ForeignKeyAction.deserialize
  some ⟨columns, rt, rcolumns, act⟩

/-- Serde serialization of an Enum struct. A HashSet serializes as an
array in iteration order; the model emits the canonical sorted order of
the set (deserialization accepts any order, see decodeList below). -/
def Enum.serialize (e : Enum) : Json :=
  .obj [("name", .str e.name),
    ("values", .arr ((e.values.sort (· ≤ ·)).map Json.str))]

/-- Serde deserialization of an Enum struct: the values array is
collected back into a set, collapsing order and duplicates. -/
def Enum.deserialize (j : Json) : Option Enum := do
  let name ← (j.getField "name").bind Json.asStr
  let vs ← (j.getField "values").bind Json.asArr
  let vals ← decodeList Json.asStr vs
  some ⟨name, vals.toFinset⟩

/-- Serde serialization of a Sequence struct. -/
def Sequence.serialize (q : Sequence) : Json :=
  .obj [("name", .str q.name), ("initial_value", .num q.initial_value),
    ("allocation_size", .num q.allocation_size)]

/-- Serde deserialization of a Sequence struct. -/
def Sequence.deserialize (j : Json) : Option Sequence := do
  let name ← (j.getField "name").bind Json.asStr
  let iv ← (j.getField "initial_value").bind Json.asNum
  let alloc ← (j.getField "allocation_size").bind Json.asNum
  some ⟨name, iv, alloc⟩

/-- Serde serialization of a Table struct. -/
def Table.serialize (t : Table) : Json :=
  .obj [("name", .str t.name),
    ("columns", .arr (t.columns.map Column.serialize)),
    ("indices", .arr (t.indices.map Index.serialize)),
    ("primary_key", encodeOptPk t.primary_key),
    ("foreign_keys", .arr (t.foreign_keys.map ForeignKey.serialize))]

/-- Serde deserialization of a Table struct. -/
def Table.deserialize (j : Json) : Option Table := do
  let name ← (j.getField "name").bind Json.asStr
  let cols ← (j.getField "columns").bind Json.asArr
  let columns ← decodeList Column.deserialize cols
  let idxs ← (j.getField "indices").bind Json.asArr
  let indices ← decodeList Index.deserialize idxs
  let pk ← decodeOptPk (j.getField "primary_key")
  let fks ← (j.getField "foreign_keys").bind Json.asArr
  let foreign_keys ← decodeList ForeignKey.deserialize fks
  some ⟨name, columns, indices, pk, foreign_keys⟩

/-- Serde serialization of a DatabaseSchema struct. -/
def DatabaseSchema.serialize (s : DatabaseSchema) : Json :=
  .obj [("tables", .arr (s.tables.map Table.serialize)),
    ("enums", .arr (s.enums.map Enum.serialize)),
    ("sequences", .arr (s.sequences.map Sequence.serialize))]

/-- Serde deserialization of a DatabaseSchema struct. -/
def DatabaseSchema.deserialize (j : Json) : Option DatabaseSchema := do
  let tbls ← (j.getField "tables").bind Json.asArr
  let tables ← decodeList Table.deserialize tbls
  let ens ← (j.getField "enums").bind Json.asArr
  let enums ← decodeList Enum.deserialize ens
  let seqs ← (j.getField "sequences").bind Json.asArr
  let sequences ← decodeList Sequence.deserialize seqs
  some ⟨tables, enums, sequences⟩

/-! Round-trip lemmas: deserializing the serialization of each entity
recovers the value. -/

theorem asStr_str (s : String) : Json.asStr (Json.str s) = some s := rfl

theorem decodeList_map (f : Json → Option α) (g : α → Json)
    (h : ∀ a, f (g a) = some a) :
    ∀ l : List α, decodeList f (l.map g) = some l
  | [] => rfl
  | a :: rest => by
    simp [decodeList, h a, decodeList_map f g h rest]

theorem family_deserialize_serialize (f : ColumnTypeFamily) :
    ColumnTypeFamily.deserialize f.serialize = some f := by
  cases f <;> rfl

theorem arity_deserialize_serialize (a : ColumnArity) :
    ColumnArity.deserialize a.serialize = some a := by
  cases a <;> rfl

theorem action_deserialize_serialize (a : ForeignKeyAction) :
    ForeignKeyAction.deserialize a.serialize = some a := by
  cases a <;> rfl

theorem decodeOptStr_encode (d : Option String) :
    decodeOptStr (some (encodeOptStr d)) = some d := by
  cases d <;> rfl

theorem columnType_deserialize_serialize (t : ColumnType) :
    ColumnType.deserialize t.serialize = some t := by
  cases t with
  | mk raw family =>
    simp [ColumnType.serialize, ColumnType.deserialize, Json.getField, findField,
      Json.asStr, family_deserialize_serialize]

theorem column_deserialize_serialize (c : Column) :
    Column.deserialize c.serialize = some c := by
  cases c with
  | mk name tpe arity dflt ai =>
    simp [Column.serialize, Column.deserialize, Json.getField, findField,
      Json.asStr, Json.asBool, columnType_deserialize_serialize,
      arity_deserialize_serialize, decodeOptStr_encode]

theorem index_deserialize_serialize (i : Index) :
    Index.deserialize i.serialize = some i := by
  cases i with
  | mk name columns uniq =>
    simp [Index.serialize, Index.deserialize, Json.getField, findField,
      Json.asStr, Json.asBool, Json.asArr, decodeList_map Json.asStr Json.str asStr_str]

theorem pk_deserialize_serialize (pk : PrimaryKey) :
    PrimaryKey.deserialize pk.serialize = some pk := by
  cases pk with
  | mk columns =>
    simp [PrimaryKey.serialize, PrimaryKey.deserialize, Json.getField, findField,
      Json.asArr, decodeList_map Json.asStr Json.str asStr_str]

theorem decodeOptPk_encode (pk : Option PrimaryKey) :
    decodeOptPk (some (encodeOptPk pk)) = some pk := by
  cases pk with
  | none => rfl
  | some pk =>
    simp [encodeOptPk, PrimaryKey.serialize, decodeOptPk]
    have h := pk_deserialize_serialize pk
    simp [PrimaryKey.serialize] at h
    simp [h]

theorem fk_deserialize_serialize (fk : ForeignKey) :
    ForeignKey.deserialize fk.serialize = some fk := by
  cases fk with
  | mk columns rt rcolumns act =>
    simp [ForeignKey.serialize, ForeignKey.deserialize, Json.getField, findField,
      Json.asStr, Json.asArr, action_deserialize_serialize,
      decodeList_map Json.asStr Json.str asStr_str]

theorem enum_deserialize_serialize (e : Enum) :
    Enum.deserialize e.serialize = some e := by
  cases e with
  | mk name values =>
    simp [Enum.serialize, Enum.deserialize, Json.getField, findField,
      Json.asStr, Json.asArr, decodeList_map Json.asStr Json.str asStr_str,
      Finset.sort_toFinset]

theorem sequence_deserialize_serialize (q : Sequence) :
    Sequence.deserialize q.serialize = some q := by
  cases q with
  | mk name iv alloc =>
    simp [Sequence.serialize, Sequence.deserialize, Json.getField, findField,
      Json.asStr, Json.asNum]

theorem table_deserialize_serialize (t : Table) :
    Table.deserialize t.serialize = some t := by
  cases t with
  | mk name columns indices pk fks =>
    simp [Table.serialize, Table.deserialize, Json.getField, findField,
      Json.asStr, Json.asArr,
      decodeList_map Column.deserialize Column.serialize column_deserialize_serialize,
      decodeList_map Index.deserialize Index.serialize index_deserialize_serialize,
      decodeList_map ForeignKey.deserialize ForeignKey.serialize fk_deserialize_serialize,
      decodeOptPk_encode]

theorem schema_deserialize_serialize (s : DatabaseSchema) :
    DatabaseSchema.deserialize s.serialize = some s := by
  cases s with
  | mk tables enums sequences =>
    simp [DatabaseSchema.serialize, DatabaseSchema.deserialize, Json.getField, findField,
      Json.asArr,
      decodeList_map Table.deserialize Table.serialize table_deserialize_serialize,
      decodeList_map Enum.deserialize Enum.serialize enum_deserialize_serialize,
      decodeList_map Sequence.deserialize Sequence.serialize sequence_deserialize_serialize]

/-! Spec invariants as predicates over the embedded data model. The
Rust structs have public fields and derive-only impls, so every raw
value of these types is constructible; the predicates below express
the invariants the spec claims are enforced, to test whether the type
can hold values violating them. -/

/-- Formalization of the spec invariant wording: every column name
referenced by the table's primary key occurs among the names of the
table's columns. -/
def Table.pk_columns_exist (t : Table) : Bool :=
  match t.primary_key with
  | none => true
  | some pk => pk.columns.all (fun c => (t.columns.map Column.name).contains c)

/-- Formalization of the spec invariant wording: a foreign key's local
and referenced column lists have the same length. -/
def ForeignKey.arity_ok (fk : ForeignKey) : Bool :=
  fk.columns.length == fk.referenced_columns.length

/-- Formalization of the spec invariant wording: auto_increment is only
set on columns whose type family is Int. -/
def Column.auto_increment_only_int (c : Column) : Bool :=
  !c.auto_increment || decide (c.tpe.family = ColumnTypeFamily.Int)

/-- A Table value whose primary key references a column name that does
not occur among its columns; the struct accepts it without any check. -/
def badTable : Table :=
  { name := "orders"
    columns := []
    indices := []
    primary_key := some ⟨["ghost"]⟩
    foreign_keys := [] }

/-- A ForeignKey value whose local and referenced column lists have
different lengths; the struct accepts it without any check. -/
def badForeignKey : ForeignKey :=
  { columns := ["a"]
    referenced_table := "t"
    referenced_columns := []
    on_delete_action := .NoAction }

/-- A Column value with auto_increment set on a String-family column;
the struct accepts it without any check. -/
def badColumn : Column :=
  { name := "c"
    tpe := { raw := "text", family := .String }
    arity := .Required
    default := none
    auto_increment := true }

/-- A required integer column with the given name. -/
def intColumn (n : String) : Column :=
  { name := n
    tpe := { raw := "integer", family := .Int }
    arity := .Required
    default := none
    auto_increment := false }

/-- The orders table of the composite-primary-key scenario. -/
def ordersTable : Table :=
  { name := "orders"
    columns := [intColumn "customer_id", intColumn "order_seq"]
    indices := []
    primary_key := some ⟨["customer_id", "order_seq"]⟩
    foreign_keys := [] }

/-- The schema of the composite-primary-key scenario. -/
def ordersSchema : DatabaseSchema :=
  { tables := [ordersTable], enums := [], sequences := [] }

/-- First of two tables sharing the name dup. -/
def dupTableA : Table :=
  { name := "dup", columns := [intColumn "a"], indices := [], primary_key := none
    foreign_keys := [] }

/-- Second of two tables sharing the name dup. -/
def dupTableB : Table :=
  { name := "dup", columns := [], indices := [], primary_key := none, foreign_keys := [] }

/-- First of two enums sharing the name shade. -/
def dupEnumA : Enum := ⟨"shade", (["red"] : List String).toFinset⟩

/-- Second of two enums sharing the name shade. -/
def dupEnumB : Enum := ⟨"shade", ∅⟩

/-- First of two sequences sharing the name seq1. -/
def dupSequenceA : Sequence := ⟨"seq1", 1, 1⟩

/-- Second of two sequences sharing the name seq1. -/
def dupSequenceB : Sequence := ⟨"seq1", 2, 2⟩

/-- A schema holding duplicate table, enum and sequence names, a state
the types do not prevent. -/
def dupSchema : DatabaseSchema :=
  { tables := [dupTableA, dupTableB]
    enums := [dupEnumA, dupEnumB]
    sequences := [dupSequenceA, dupSequenceB] }

/-- Models the collection of enum member values produced in some order
into the HashSet field of Enum (HashSet insertion collapses order and
duplicates). -/
def Enum.of_values (name : String) (vs : List String) : Enum :=
  ⟨name, vs.toFinset⟩

/-- The serialized form of an Enum whose values array lists the given
strings in the given order. -/
def enumValuesJson (n : String) (l : List String) : Json :=
  .obj [("name", .str n), ("values", .arr (l.map Json.str))]

/-! Generic lemmas about find?-based name lookup. -/

theorem find_by_name {α : Type} (nm : α → String) (l : List α) (n : String) :
    (∀ a, l.find? (fun x => nm x == n) = some a → a ∈ l ∧ nm a = n) ∧
    (l.find? (fun x => nm x == n) = none ↔ ∀ a ∈ l, nm a ≠ n) := by
  constructor
  · intro a h
    refine ⟨List.mem_of_find?_eq_some h, ?_⟩
    have hp := List.find?_some h
    simpa using hp
  · rw [List.find?_eq_none]
    simp

theorem find?_first {α : Type} (p : α → Bool) (pre : List α) (a : α) (post : List α)
    (h1 : ∀ u ∈ pre, ¬ p u) (h2 : p a) :
    (pre ++ a :: post).find? p = some a := by
  induction pre with
  | nil => simpa using List.find?_cons_of_pos post h2
  | cons x xs ih =>
    have hx : ¬ p x := h1 x (by simp)
    rw [List.cons_append, List.find?_cons_of_neg _ hx]
    exact ih (fun u hu => h1 u (by simp [hu]))

theorem enumValuesJson_deserialize (n : String) (l : List String) :
    Enum.deserialize (enumValuesJson n l) = some ⟨n, l.toFinset⟩ := by
  simp [enumValuesJson, Enum.deserialize, Json.getField, findField, Json.asStr,
    Json.asArr, decodeList_map Json.asStr Json.str asStr_str]

/-! Claim theorems. -/

/-- C1: deserializing the serialization of any DatabaseSchema value,
including schemas with empty collections, none optionals, and every
ColumnTypeFamily and ForeignKeyAction variant, yields a value equal to
the original, where equality on Enum values treats the value set as
unordered and all column lists as ordered. -/
theorem C1_schema_roundtrip (s : DatabaseSchema) :
    DatabaseSchema.deserialize s.serialize = some s :=
  schema_deserialize_serialize s

/-- C2 counterexample: badTable is a Table value whose primary key
references the name ghost, absent from its (empty) column list; the
plain struct accepts it, so the claimed rejection at construction does
not happen. -/
theorem C2_counterexample :
    badTable.primary_key = some ⟨["ghost"]⟩ ∧ badTable.columns = [] ∧
      Table.pk_columns_exist badTable = false := by
  decide

/-- C2 amended: the Table type performs no construction-time
validation, so a Table whose PrimaryKey.columns references a name
absent from its columns is silently representable. -/
theorem C2_unvalidated_table_constructible :
    ∃ t : Table, Table.pk_columns_exist t = false :=
  ⟨badTable, by decide⟩

/-- C3 counterexample: badForeignKey has one local column and no
referenced columns; the plain struct accepts it, so the claimed
rejection of mismatched lengths does not happen. -/
theorem C3_counterexample :
    badForeignKey.columns.length = 1 ∧ badForeignKey.referenced_columns.length = 0 ∧
      ForeignKey.arity_ok badForeignKey = false := by
  decide

/-- C3 amended: the ForeignKey type performs no construction-time
validation, so a ForeignKey whose column lists have different lengths
is silently representable. -/
theorem C3_unvalidated_foreign_key_constructible :
    ∃ fk : ForeignKey, ForeignKey.arity_ok fk = false :=
  ⟨badForeignKey, by decide⟩

/-- C4 counterexample: badColumn has auto_increment set while its type
family is String, not Int; the plain struct accepts it. -/
theorem C4_counterexample :
    badColumn.auto_increment = true ∧ badColumn.tpe.family = ColumnTypeFamily.String ∧
      Column.auto_increment_only_int badColumn = false := by
  decide

/-- C4 amended: the Column type performs no construction-time
validation, so auto_increment can be set on a column of any type
family, not only Int. -/
theorem C4_auto_increment_unrestricted :
    ∃ c : Column, c.auto_increment = true ∧ c.tpe.family ≠ ColumnTypeFamily.Int :=
  ⟨badColumn, by decide⟩

/-- C5 counterexample: the error type has no two distinct kinds at all,
so it cannot provide an UnknownRawType kind distinct from other failure
kinds. -/
theorem C5_counterexample :
    ¬ ∃ e₁ e₂ : IntrospectionError, e₁ ≠ e₂ := by
  rintro ⟨e₁, e₂, hne⟩
  cases e₁
  cases e₂
  exact hne rfl

/-- C5 amended: the core's error type provides exactly one failure
kind, UnknownError; no distinct UnknownRawType kind carrying the
offending raw string exists, so the normalizer cannot signal one
through it. -/
theorem C5_error_type_has_single_kind (e : IntrospectionError) :
    e = IntrospectionError.UnknownError := by
  cases e
  rfl

/-- C6: get_table returns some table of the schema with exactly the
requested name when one exists and none when no table of that name
exists, and likewise get_enum and get_sequence; the accessors are total
pure functions of the schema value (no error, no side effect). -/
theorem C6_accessors_correct (s : DatabaseSchema) (n : String) :
    (∀ t, s.get_table n = some t → t ∈ s.tables ∧ t.name = n) ∧
    (s.get_table n = none ↔ ∀ t ∈ s.tables, t.name ≠ n) ∧
    (∀ e, s.get_enum n = some e → e ∈ s.enums ∧ e.name = n) ∧
    (s.get_enum n = none ↔ ∀ e ∈ s.enums, e.name ≠ n) ∧
    (∀ q, s.get_sequence n = some q → q ∈ s.sequences ∧ q.name = n) ∧
    (s.get_sequence n = none ↔ ∀ q ∈ s.sequences, q.name ≠ n) :=
  ⟨(find_by_name Table.name s.tables n).1, (find_by_name Table.name s.tables n).2,
    (find_by_name Enum.name s.enums n).1, (find_by_name Enum.name s.enums n).2,
    (find_by_name Sequence.name s.sequences n).1, (find_by_name Sequence.name s.sequences n).2⟩

/-- C6 witness: the accessor correctness theorem applied to the orders
schema at a name no table, enum or sequence has. -/
theorem C6_witness :
    ordersSchema.get_table "absent" = none ∧ ordersSchema.get_enum "absent" = none ∧
      ordersSchema.get_sequence "absent" = none :=
  ⟨(C6_accessors_correct ordersSchema "absent").2.1.mpr (by decide),
    (C6_accessors_correct ordersSchema "absent").2.2.2.1.mpr (by decide),
    (C6_accessors_correct ordersSchema "absent").2.2.2.2.2.mpr (by decide)⟩

/-- C7: Enum equality is insensitive to the order and multiplicity in
which member values were produced: equal names and equal value sets
give equal Enum values, and collecting two member lists with the same
underlying set yields equal Enum values regardless of insertion
order. -/
theorem C7_enum_equality_unordered :
    (∀ e₁ e₂ : Enum, e₁.name = e₂.name → e₁.values = e₂.values → e₁ = e₂) ∧
    (∀ n (l₁ l₂ : List String), l₁.toFinset = l₂.toFinset →
      Enum.of_values n l₁ = Enum.of_values n l₂) := by
  constructor
  · rintro ⟨n₁, v₁⟩ ⟨n₂, v₂⟩ h₁ h₂
    simp_all
  · intro n l₁ l₂ h
    simp [Enum.of_values, h]

/-- C7 witness: the theorem applied to two member lists differing in
order and multiplicity. -/
theorem C7_witness :
    Enum.of_values "status" ["a", "b"] = Enum.of_values "status" ["b", "a", "a"] :=
  C7_enum_equality_unordered.2 "status" ["a", "b"] ["b", "a", "a"] (by decide)

/-- C8: column order in PrimaryKey.columns and Index.columns is
significant: distinct column sequences give unequal PrimaryKey and
Index values, and the composite primary key of the orders scenario
survives a serialization round-trip and a get_table lookup with its
order preserved exactly. -/
theorem C8_column_order_significant :
    (∀ l₁ l₂ : List String, l₁ ≠ l₂ → PrimaryKey.mk l₁ ≠ PrimaryKey.mk l₂) ∧
    (∀ nm u (l₁ l₂ : List String), l₁ ≠ l₂ → Index.mk nm l₁ u ≠ Index.mk nm l₂ u) ∧
    DatabaseSchema.deserialize ordersSchema.serialize = some ordersSchema ∧
    (ordersSchema.get_table "orders").map Table.primary_key =
      some (some ⟨["customer_id", "order_seq"]⟩) := by
  refine ⟨?_, ?_, schema_deserialize_serialize ordersSchema, ?_⟩
  · intro l₁ l₂ h hc
    exact h (congrArg PrimaryKey.columns hc)
  · intro nm u l₁ l₂ h hc
    exact h (congrArg Index.columns hc)
  · decide

/-- C8 witness: the theorem applied to the two orders of the composite
key of the scenario. -/
theorem C8_witness :
    PrimaryKey.mk ["customer_id", "order_seq"] ≠ PrimaryKey.mk ["order_seq", "customer_id"] ∧
      Index.mk "i" ["a", "b"] true ≠ Index.mk "i" ["b", "a"] true :=
  ⟨C8_column_order_significant.1 _ _ (by decide),
    C8_column_order_significant.2.1 "i" true _ _ (by decide)⟩

/-- C9: when a schema holds several tables (enums, sequences) of the
same name, get_table (get_enum, get_sequence) returns the first match
in the order of the owning collection, not an error and not a later
duplicate. -/
theorem C9_get_returns_first (s : DatabaseSchema) (n : String) :
    (∀ pre t post, s.tables = pre ++ t :: post → (∀ u ∈ pre, u.name ≠ n) →
      t.name = n → s.get_table n = some t) ∧
    (∀ pre e post, s.enums = pre ++ e :: post → (∀ u ∈ pre, u.name ≠ n) →
      e.name = n → s.get_enum n = some e) ∧
    (∀ pre q post, s.sequences = pre ++ q :: post → (∀ u ∈ pre, u.name ≠ n) →
      q.name = n → s.get_sequence n = some q) := by
  refine ⟨?_, ?_, ?_⟩
  · intro pre t post hsplit hpre ht
    unfold DatabaseSchema.get_table
    rw [hsplit]
    exact find?_first _ pre t post (by simpa using hpre) (by simp [ht])
  · intro pre e post hsplit hpre he
    unfold DatabaseSchema.get_enum
    rw [hsplit]
    exact find?_first _ pre e post (by simpa using hpre) (by simp [he])
  · intro pre q post hsplit hpre hq
    unfold DatabaseSchema.get_sequence
    rw [hsplit]
    exact find?_first _ pre q post (by simpa using hpre) (by simp [hq])

/-- C9 witness: the theorem applied to a schema holding two tables, two
enums and two sequences of duplicated names; each accessor returns the
first duplicate. -/
theorem C9_witness :
    dupSchema.get_table "dup" = some dupTableA ∧
      dupSchema.get_enum "shade" = some dupEnumA ∧
      dupSchema.get_sequence "seq1" = some dupSequenceA :=
  ⟨(C9_get_returns_first dupSchema "dup").1 [] dupTableA [dupTableB] rfl (by simp) rfl,
    (C9_get_returns_first dupSchema "shade").2.1 [] dupEnumA [dupEnumB] rfl (by simp) rfl,
    (C9_get_returns_first dupSchema "seq1").2.2 [] dupSequenceA [dupSequenceB] rfl (by simp) rfl⟩

/-- C10: Enum deserialization accepts value arrays in any order and
with duplicates and collapses them to the same set, so serialized forms
differing only in order or duplication of enum values deserialize to
equal Enum values; two such distinct serialized forms exist, so the
serialized-text-to-value map is many-to-one even though the round-trip
on values holds. -/
theorem C10_enum_deserialization_collapses :
    (∀ n (l₁ l₂ : List String), l₁.toFinset = l₂.toFinset →
      Enum.deserialize (enumValuesJson n l₁) = Enum.deserialize (enumValuesJson n l₂)) ∧
    enumValuesJson "e1" ["a", "b"] ≠ enumValuesJson "e1" ["b", "a", "a"] ∧
    Enum.deserialize (enumValuesJson "e1" ["b", "a", "a"]) =
      some (Enum.of_values "e1" ["a", "b"]) ∧
    (∀ e : Enum, Enum.deserialize e.serialize = some e) := by
  refine ⟨?_, ?_, ?_, enum_deserialize_serialize⟩
  · intro n l₁ l₂ h
    rw [enumValuesJson_deserialize, enumValuesJson_deserialize, h]
  · intro h
    simp [enumValuesJson] at h
  · rw [enumValuesJson_deserialize]
    have hset : (["b", "a", "a"] : List String).toFinset = (["a", "b"] : List String).toFinset := by
      ext x
      simp
      tauto
    simp [Enum.of_values, hset]

/-- C10 witness: the theorem applied to two value lists differing in
order and multiplicity. -/
theorem C10_witness :
    Enum.deserialize (enumValuesJson "x" ["p", "q"]) =
      Enum.deserialize (enumValuesJson "x" ["q", "p", "p"]) :=
  C10_enum_deserialization_collapses.1 "x" ["p", "q"] ["q", "p", "p"] (by decide)

end Introspection
